import Mathlib

/-!
Shallow embedding of `simple-settings-rs` (src/lib.rs): a disk-backed store
`Settings<T>` holding an open file handle and an in-memory value, with a read
guard (`SettingsGuard`, no `Drop` impl) and a mutable guard
(`MutableSettingsGuard`, whose `Drop` impl persists the value with the
sequence set_len(0); sync_all; seek(Start 0); write_all(encode data);
sync_all, unwrapping every step).

The filesystem is modelled as an association list from paths to byte
contents, extended with fault-injection flags so that the failure of each
I/O primitive (`File::create`, `open`, `set_len`, `sync_all`, `seek`,
`write_all`) is representable.  The TOML serialization collaborator is
opaque: a `Codec T` supplies `encode : T → Option Bytes`
(`toml::to_vec`, which can fail) and `decode : Bytes → Option T`
(`read_to_string` + `toml::from_str`, which can fail on malformed input).
A Rust `panic!` arising from `.unwrap()` is modelled as a distinguished
`panicked` outcome, separate from any returned error value.
-/

namespace SimpleSettings

abbrev Path := String
abbrev Bytes := List Nat

/-- Fault-injection flags for one open file handle: whether each I/O
primitive used by the write-back sequence fails on this handle. -/
structure FileFaults where
  setLenFails : Bool
  syncFails : Bool
  seekFails : Bool
  writeFails : Bool
deriving DecidableEq, Repr

/-- The fault assignment under which every I/O primitive succeeds. -/
def noFaults : FileFaults := ⟨false, false, false, false⟩

/-- Model filesystem: file contents per path, plus which paths fail to
`File::create` / `open`, and the per-handle fault flags per path. -/
structure FS where
  files : List (Path × Bytes)
  badCreate : List Path
  badOpen : List Path
  faults : List (Path × FileFaults)
deriving DecidableEq, Repr

/-- First-match lookup in an association list keyed by paths. -/
def lookupA {α : Type} : List (Path × α) → Path → Option α
  | [], _ => none
  | (q, a) :: rest, p => if q = p then some a else lookupA rest p

/-- Overwrite (or insert) the binding for a path in an association list. -/
def setA {α : Type} : List (Path × α) → Path → α → List (Path × α)
  | [], p, a => [(p, a)]
  | (q, b) :: rest, p, a =>
      if q = p then (p, a) :: rest else (q, b) :: setA rest p a

/-- Content of the file at `p`, if a file exists there. -/
def FS.getFile (fs : FS) (p : Path) : Option Bytes := lookupA fs.files p

/-- Replace (or create) the file at `p` with content `b`. -/
def FS.setFile (fs : FS) (p : Path) (b : Bytes) : FS :=
  { fs with files := setA fs.files p b }

/-- Fault flags that a handle opened at `p` carries (no entry = no faults). -/
def FS.getFaults (fs : FS) (p : Path) : FileFaults :=
  (lookupA fs.faults p).getD noFaults

/-- An open `std::fs::File` handle: the path it refers to, the current
cursor position, and its fault flags. -/
structure Handle where
  path : Path
  pos : Nat
  faults : FileFaults
deriving DecidableEq, Repr

/-- `File::set_len(n)` semantics on the content: truncate to `n` bytes, or
zero-extend up to `n` bytes.  Cursor position is unchanged. -/
def truncTo (c : Bytes) (n : Nat) : Bytes :=
  c.take n ++ List.replicate (n - c.length) 0

/-- Overwrite bytes of `c` starting at `pos` with `bs`, zero-filling any
gap past the end of file (POSIX write semantics). -/
def writeAt (c : Bytes) (pos : Nat) (bs : Bytes) : Bytes :=
  c.take pos ++ List.replicate (pos - c.length) 0 ++ bs ++ c.drop (pos + bs.length)

/-- `self.file.set_len(n)`: `none` models an `Err` from the OS. -/
def fileSetLen (fs : FS) (h : Handle) (n : Nat) : Option FS :=
  if h.faults.setLenFails then none
  else some (fs.setFile h.path (truncTo ((fs.getFile h.path).getD []) n))

/-- `self.file.sync_all()`: flushes; no visible state change on success. -/
def fileSyncAll (fs : FS) (h : Handle) : Option FS :=
  if h.faults.syncFails then none else some fs

/-- `self.file.seek(SeekFrom::Start(0))`: moves the cursor to offset 0. -/
def fileSeekStart (h : Handle) : Option Handle :=
  if h.faults.seekFails then none else some { h with pos := 0 }

/-- `self.file.write_all(bs)`: writes all of `bs` at the cursor. -/
def fileWriteAll (fs : FS) (h : Handle) (bs : Bytes) : Option (FS × Handle) :=
  if h.faults.writeFails then none
  else some (fs.setFile h.path (writeAt ((fs.getFile h.path).getD []) h.pos bs),
             { h with pos := h.pos + bs.length })

/-- The opaque serialization collaborator: `encode` is `toml::to_vec`
(which can fail on a non-representable value) and `decode` is
`read_to_string` followed by `toml::from_str` (which can fail on
malformed or schema-mismatched bytes). -/
structure Codec (T : Type) where
  encode : T → Option Bytes
  decode : Bytes → Option T

/-- One file operation issued against the backing file, for tracing the
write-back sequence. -/
inductive FileOp where
  | setLen (n : Nat)
  | syncAll
  | seekStart
  | writeAll (bs : Bytes)
deriving DecidableEq, Repr

/-- `impl Drop for MutableSettingsGuard` (src/lib.rs lines 62–75):

    self.file.set_len(0).unwrap();
    self.file.sync_all().unwrap();
    self.file.seek(std::io::SeekFrom::Start(0)).unwrap();
    self.file.write_all(&toml::to_vec(&self.data).unwrap()).unwrap();
    self.file.sync_all().unwrap();

Returns the trace of file operations issued, paired with `some` of the
final filesystem and handle on success, or `none` when some `.unwrap()`
panicked (an OS error or `toml::to_vec` failure). -/
def MutableSettingsGuard.drop {T : Type} (c : Codec T) (data : T)
    (fs : FS) (h : Handle) : List FileOp × Option (FS × Handle) :=
  match fileSetLen fs h 0 with
  | none => ([.setLen 0], none)
  | some fs1 =>
    match fileSyncAll fs1 h with
    | none => ([.setLen 0, .syncAll], none)
    | some fs2 =>
      match fileSeekStart h with
      | none => ([.setLen 0, .syncAll, .seekStart], none)
      | some h1 =>
        match c.encode data with
        | none => ([.setLen 0, .syncAll, .seekStart], none)
        | some bs =>
          match fileWriteAll fs2 h1 bs with
          | none => ([.setLen 0, .syncAll, .seekStart, .writeAll bs], none)
          | some (fs3, h2) =>
            match fileSyncAll fs3 h2 with
            | none => ([.setLen 0, .syncAll, .seekStart, .writeAll bs, .syncAll], none)
            | some fs4 =>
              ([.setLen 0, .syncAll, .seekStart, .writeAll bs, .syncAll],
               some (fs4, h2))

/-- `Settings<T>`: an open file handle plus the in-memory value. -/
structure Settings (T : Type) where
  file : Handle
  data : T
deriving DecidableEq, Repr

/-- Outcome of `Settings::new`: `Ok(self)` with the updated filesystem,
a returned `io::Error`, or a panic during the implicit write-back. -/
inductive NewResult (T : Type) where
  | ok (s : Settings T) (fs : FS)
  | ioError
  | panicked
deriving DecidableEq, Repr

/-- `Settings::new(path, data)` (src/lib.rs lines 82–89): `File::create`
(creates or truncates; `?` returns the `io::Error` on failure), then
`let _ = s.guard_mut();` — the guard is dropped immediately, running the
write-back sequence before `Ok(s)` is returned. -/
def Settings.new {T : Type} (c : Codec T) (fs : FS) (path : Path) (data : T) :
    NewResult T :=
  if path ∈ fs.badCreate then .ioError
  else
    match (MutableSettingsGuard.drop c data (fs.setFile path [])
        ⟨path, 0, fs.getFaults path⟩).2 with
    | none => .panicked
    | some (fs2, h2) => .ok ⟨h2, data⟩ fs2

/-- Outcome of `Settings::load`: `Ok(Some(s))`, `Ok(None)` (open failed:
absent or unopenable path), or `Err` from a decode failure. -/
inductive LoadResult (T : Type) where
  | ok (s : Settings T)
  | noStore
  | decodeError
deriving DecidableEq, Repr

/-- `Settings::load(path)` (src/lib.rs lines 92–109): open read+write,
mapping any open error to `Ok(None)`; on success read the whole content
and decode it, propagating a decode failure as `Err`.  After
`read_to_string` the cursor sits at end of file. -/
def Settings.load {T : Type} (c : Codec T) (fs : FS) (path : Path) :
    LoadResult T :=
  if path ∈ fs.badOpen then .noStore
  else
    match fs.getFile path with
    | none => .noStore
    | some bytes =>
      match c.decode bytes with
      | none => .decodeError
      | some t => .ok ⟨⟨path, bytes.length, fs.getFaults path⟩, t⟩

/-- `SettingsGuard` (src/lib.rs lines 23–32): a read guard holding `&T`;
it only has a `Deref` impl. -/
structure SettingsGuard (T : Type) where
  data : T
deriving DecidableEq, Repr

/-- `Settings::guard` (src/lib.rs lines 112–114): borrow the in-memory
value; no file operation is involved. -/
def Settings.guard {T : Type} (s : Settings T) : SettingsGuard T :=
  ⟨s.data⟩

/-- Releasing a read guard: `SettingsGuard` has no `Drop` impl in the
source, so going out of scope issues no file operation and leaves the
filesystem unchanged. -/
def SettingsGuard.release {T : Type} (_g : SettingsGuard T) (fs : FS) :
    List FileOp × FS :=
  ([], fs)

/-- Outcome of a write-guard scope: `ok` with the surviving store and the
updated filesystem, or a panic from the guard's `Drop`. -/
inductive MutResult (T : Type) where
  | ok (s : Settings T) (fs : FS)
  | panicked
deriving DecidableEq, Repr

/-- `Settings::guard_mut` (src/lib.rs lines 117–122) followed by a caller
mutation `f` through the guard's `DerefMut`, followed by the end of the
guard's scope (its `Drop`).  Acquisition itself performs no I/O; all I/O
happens in the drop. -/
def Settings.withGuardMut {T : Type} (c : Codec T) (s : Settings T)
    (fs : FS) (f : T → T) : MutResult T :=
  match (MutableSettingsGuard.drop c (f s.data) fs s.file).2 with
  | none => .panicked
  | some (fs2, h2) => .ok ⟨h2, f s.data⟩ fs2

/-! ### Concrete fixtures used by the witnesses -/

/-- A concrete codec on `Nat`: every value encodes to a one-byte payload
and exactly the one-byte payloads decode back.  Satisfies the round-trip
contract `decode (encode v) = v`. -/
def cNat : Codec Nat :=
  ⟨fun n => some [n],
   fun bs => match bs with
     | [n] => some n
     | _ => none⟩

/-- A codec whose `encode` always fails (models a value `toml::to_vec`
rejects, e.g. a top-level non-table). -/
def cBadEnc : Codec Nat := ⟨fun _ => none, fun _ => none⟩

/-- The empty, fault-free filesystem. -/
def fs0 : FS := ⟨[], [], [], []⟩

/-- A filesystem holding one file `cfg` with content `[7]`. -/
def fsW : FS := ⟨[("cfg", [7])], [], [], []⟩

/-- A filesystem holding one file `cfg` with content `[3]`. -/
def fsC1 : FS := ⟨[("cfg", [3])], [], [], []⟩

/-- A filesystem holding one file `cfg` with content `[5]`. -/
def fsOne5 : FS := ⟨[("cfg", [5])], [], [], []⟩

/-- A filesystem holding one file `cfg` with undecodable content. -/
def fsCorrupt : FS := ⟨[("cfg", [1, 2])], [], [], []⟩

/-- A filesystem where `File::create("cfg")` fails. -/
def fsBadC : FS := ⟨[], ["cfg"], [], []⟩

/-- A fault-free handle on `cfg` with the cursor at offset 1. -/
def hW : Handle := ⟨"cfg", 1, noFaults⟩

/-- A store on `cfg` holding the value 3 (as produced by a successful
`Settings::new`). -/
def sC1 : Settings Nat := ⟨⟨"cfg", 1, noFaults⟩, 3⟩

/-- A store whose handle fails `set_len`. -/
def sFaulty : Settings Nat := ⟨⟨"cfg", 0, ⟨true, false, false, false⟩⟩, 3⟩

/-! ### Association-list lemmas -/

theorem lookupA_setA_same {α : Type} (l : List (Path × α)) (p : Path) (a : α) :
    lookupA (setA l p a) p = some a := by
  induction l with
  | nil => simp [setA, lookupA]
  | cons hd tl ih =>
    obtain ⟨q, b⟩ := hd
    by_cases hq : q = p
    · simp [setA, hq, lookupA]
    · simp [setA, hq, lookupA, ih]

@[simp] theorem getFile_setFile_same (fs : FS) (p : Path) (b : Bytes) :
    (fs.setFile p b).getFile p = some b :=
  lookupA_setA_same fs.files p b

@[simp] theorem badOpen_setFile (fs : FS) (p : Path) (b : Bytes) :
    (fs.setFile p b).badOpen = fs.badOpen := rfl

@[simp] theorem badCreate_setFile (fs : FS) (p : Path) (b : Bytes) :
    (fs.setFile p b).badCreate = fs.badCreate := rfl

@[simp] theorem getFaults_setFile (fs : FS) (p q : Path) (b : Bytes) :
    (fs.setFile p b).getFaults q = fs.getFaults q := rfl

/-! ### Computation lemmas for the write-back (`Drop`) sequence -/

/-- On a fault-free handle with a successful encoding, the drop runs the
whole five-step sequence and leaves the file holding exactly the
encoding, with the cursor after the written bytes. -/
theorem drop_noFaults {T : Type} (c : Codec T) (d : T) (fs : FS) (h : Handle)
    (hf : h.faults = noFaults) (bs : Bytes) (he : c.encode d = some bs) :
    MutableSettingsGuard.drop c d fs h =
      ([.setLen 0, .syncAll, .seekStart, .writeAll bs, .syncAll],
       some ((fs.setFile h.path []).setFile h.path bs,
             ⟨h.path, bs.length, h.faults⟩)) := by
  simp [MutableSettingsGuard.drop, fileSetLen, fileSyncAll, fileSeekStart,
    fileWriteAll, hf, he, noFaults, truncTo, writeAt]

/-- A successful drop forces every fault flag off and the encoding to
have succeeded. -/
theorem drop_ok_inv {T : Type} (c : Codec T) (d : T) (fs : FS) (h : Handle)
    (fs' : FS) (h' : Handle)
    (hd : (MutableSettingsGuard.drop c d fs h).2 = some (fs', h')) :
    h.faults = noFaults ∧ ∃ bs, c.encode d = some bs := by
  obtain ⟨p, pos, f1, f2, f3, f4⟩ := h
  cases f1 <;> cases f2 <;> cases f3 <;> cases f4 <;>
    cases he : c.encode d <;>
    simp_all [MutableSettingsGuard.drop, fileSetLen, fileSyncAll,
      fileSeekStart, fileWriteAll, noFaults]

/-- When encoding fails, the drop never completes: some `.unwrap()`
panics (at `toml::to_vec` at the latest). -/
theorem drop_encode_none {T : Type} (c : Codec T) (d : T) (fs : FS)
    (h : Handle) (he : c.encode d = none) :
    (MutableSettingsGuard.drop c d fs h).2 = none := by
  obtain ⟨p, pos, f1, f2, f3, f4⟩ := h
  cases f1 <;> cases f2 <;> cases f3 <;> cases f4 <;>
    simp [MutableSettingsGuard.drop, fileSetLen, fileSyncAll,
      fileSeekStart, fileWriteAll, he]

/-! ### Claim theorems -/

/-- C2: when a write guard's scope ends and the release completes, it has
performed exactly the sequence truncate-to-zero, sync, seek-to-start,
write of the full encoding of the current in-memory value, sync — in this
order — and the backing file ends up containing exactly that encoding. -/
theorem guard_release_writeback_sequence {T : Type} (c : Codec T) (d : T)
    (fs : FS) (h : Handle) (tr : List FileOp) (fs' : FS) (h' : Handle)
    (hd : MutableSettingsGuard.drop c d fs h = (tr, some (fs', h'))) :
    ∃ bs, c.encode d = some bs ∧
      tr = [.setLen 0, .syncAll, .seekStart, .writeAll bs, .syncAll] ∧
      fs'.getFile h.path = some bs := by
  have hd2 : (MutableSettingsGuard.drop c d fs h).2 = some (fs', h') := by
    rw [hd]
  obtain ⟨hf, bs, he⟩ := drop_ok_inv c d fs h fs' h' hd2
  rw [drop_noFaults c d fs h hf bs he] at hd
  simp only [Prod.mk.injEq, Option.some.injEq] at hd
  obtain ⟨htr, hfs, -⟩ := hd
  subst hfs
  exact ⟨bs, he, htr.symm, by simp⟩

/-- C2 witness: releasing a guard over value 5 on the fault-free handle
`hW` over filesystem `fsW` performs the five-step sequence and leaves the
file containing the encoding `[5]`. -/
theorem guard_release_writeback_sequence_witness :
    ∃ bs, cNat.encode 5 = some bs ∧
      ([FileOp.setLen 0, FileOp.syncAll, FileOp.seekStart,
          FileOp.writeAll [5], FileOp.syncAll] : List FileOp) =
        [.setLen 0, .syncAll, .seekStart, .writeAll bs, .syncAll] ∧
      fsOne5.getFile hW.path = some bs :=
  guard_release_writeback_sequence cNat 5 fsW hW
    [FileOp.setLen 0, FileOp.syncAll, FileOp.seekStart,
      FileOp.writeAll [5], FileOp.syncAll]
    fsOne5 ⟨"cfg", 1, noFaults⟩ (by decide)

/-- C4: `load` on a path with no file (or a path that cannot be opened)
yields the `Ok(None)` outcome `noStore`, never an error. -/
theorem load_absent {T : Type} (c : Codec T) (fs : FS) (p : Path)
    (h : fs.getFile p = none ∨ p ∈ fs.badOpen) :
    Settings.load c fs p = .noStore := by
  rcases h with h | h
  · by_cases hb : p ∈ fs.badOpen <;> simp [Settings.load, hb, h]
  · simp [Settings.load, h]

/-- C4 witness: loading a missing path on the empty filesystem. -/
theorem load_absent_witness :
    Settings.load cNat fs0 "missing" = .noStore :=
  load_absent cNat fs0 "missing" (Or.inl rfl)

/-- C5: `load` on a path that opens successfully but whose content does
not decode yields `decodeError` — a returned error, distinct from the
`noStore` (absent-file) outcome, with no panic outcome in `load`. -/
theorem load_corrupt {T : Type} (c : Codec T) (fs : FS) (p : Path)
    (bs : Bytes) (hopen : p ∉ fs.badOpen) (hfile : fs.getFile p = some bs)
    (hdec : c.decode bs = none) :
    Settings.load c fs p = .decodeError := by
  simp [Settings.load, hopen, hfile, hdec]

/-- C5 witness: loading `cfg` whose two-byte content `[1, 2]` is not
decodable by `cNat`. -/
theorem load_corrupt_witness :
    Settings.load cNat fsCorrupt "cfg" = .decodeError :=
  load_corrupt cNat fsCorrupt "cfg" [1, 2] (by decide) rfl rfl

/-- C7: acquiring a read guard performs no I/O and returns the current
in-memory value, and releasing it issues no file operation and leaves the
filesystem unchanged (`SettingsGuard` has no `Drop` impl). -/
theorem read_guard_no_io {T : Type} (s : Settings T) (fs : FS) :
    (Settings.guard s).data = s.data ∧
    SettingsGuard.release (Settings.guard s) fs = ([], fs) :=
  ⟨rfl, rfl⟩

/-- C1: a successful `create(path, v)` leaves the file at `path`
containing the encoding of `v`, and a subsequent `load(path)` (on a path
that opens) yields `Some(store)` whose in-memory value equals `v`,
assuming the serialization round-trip contract for `v`. -/
theorem create_then_load {T : Type} (c : Codec T) (fs : FS) (p : Path)
    (v : T) (s : Settings T) (fs' : FS)
    (hrt : ∀ bs, c.encode v = some bs → c.decode bs = some v)
    (hopen : p ∉ fs.badOpen)
    (hnew : Settings.new c fs p v = .ok s fs') :
    s.data = v ∧
    (∃ bs, c.encode v = some bs ∧ fs'.getFile p = some bs) ∧
    ∃ s2 : Settings T, Settings.load c fs' p = .ok s2 ∧ s2.data = v := by
  unfold Settings.new at hnew
  by_cases hbc : p ∈ fs.badCreate
  · simp [hbc] at hnew
  · rw [if_neg hbc] at hnew
    cases hd : (MutableSettingsGuard.drop c v (fs.setFile p [])
        ⟨p, 0, fs.getFaults p⟩).2 with
    | none => rw [hd] at hnew; exact absurd hnew (by simp)
    | some r =>
      obtain ⟨fs2, h2⟩ := r
      rw [hd] at hnew
      simp only [NewResult.ok.injEq] at hnew
      obtain ⟨hs, hfs⟩ := hnew
      obtain ⟨hf, bs, he⟩ :=
        drop_ok_inv c v (fs.setFile p []) ⟨p, 0, fs.getFaults p⟩ fs2 h2 hd
      rw [drop_noFaults c v (fs.setFile p []) ⟨p, 0, fs.getFaults p⟩ hf bs he]
        at hd
      simp only [Option.some.injEq, Prod.mk.injEq] at hd
      obtain ⟨hfs2, -⟩ := hd
      subst hs
      subst hfs
      subst hfs2
      refine ⟨rfl, ⟨bs, he, by simp⟩, ?_⟩
      refine ⟨⟨⟨p, bs.length, ?_⟩, v⟩, ?_, rfl⟩
      · exact (((fs.setFile p []).setFile p []).setFile p bs).getFaults p
      · simp [Settings.load, hopen, hrt bs he]

/-- C1 witness: creating `cfg` with value 3 on the empty filesystem, then
loading it back. -/
theorem create_then_load_witness :
    (sC1.data = 3 ∧
      (∃ bs, cNat.encode 3 = some bs ∧ fsC1.getFile "cfg" = some bs) ∧
      ∃ s2 : Settings Nat,
        Settings.load cNat fsC1 "cfg" = .ok s2 ∧ s2.data = 3) :=
  create_then_load cNat fs0 "cfg" 3 sC1 fsC1
    (fun bs hb => by
      simp only [cNat, Option.some.injEq] at hb
      subst hb
      rfl)
    (by decide) (by decide)

/-- C3: acquiring a write guard on a store, mutating the value to `v2`,
letting the guard's scope end successfully, and then independently
loading the same path yields a store whose value equals `v2`, assuming
the serialization round-trip contract for `v2`. -/
theorem write_then_reload {T : Type} (c : Codec T) (s : Settings T)
    (fs : FS) (f : T → T) (v2 : T) (s' : Settings T) (fs' : FS)
    (hv : f s.data = v2)
    (hrt : ∀ bs, c.encode v2 = some bs → c.decode bs = some v2)
    (hopen : s.file.path ∉ fs.badOpen)
    (hmut : Settings.withGuardMut c s fs f = .ok s' fs') :
    s'.data = v2 ∧
    ∃ s2 : Settings T,
      Settings.load c fs' s.file.path = .ok s2 ∧ s2.data = v2 := by
  unfold Settings.withGuardMut at hmut
  rw [hv] at hmut
  cases hd : (MutableSettingsGuard.drop c v2 fs s.file).2 with
  | none => rw [hd] at hmut; exact absurd hmut (by simp)
  | some r =>
    obtain ⟨fs2, h2⟩ := r
    rw [hd] at hmut
    simp only [MutResult.ok.injEq] at hmut
    obtain ⟨hs, hfs⟩ := hmut
    obtain ⟨hf, bs, he⟩ := drop_ok_inv c v2 fs s.file fs2 h2 hd
    rw [drop_noFaults c v2 fs s.file hf bs he] at hd
    simp only [Option.some.injEq, Prod.mk.injEq] at hd
    obtain ⟨hfs2, -⟩ := hd
    subst hs
    subst hfs
    subst hfs2
    refine ⟨rfl, ⟨⟨s.file.path, bs.length,
      ((fs.setFile s.file.path []).setFile s.file.path bs).getFaults
        s.file.path⟩, v2⟩, ?_, rfl⟩
    simp [Settings.load, hopen, hrt bs he]

/-- C3 witness: mutating the value of the store on `cfg` from 3 to 5 via
a write guard, then reloading `cfg`. -/
theorem write_then_reload_witness :
    ((⟨⟨"cfg", 1, noFaults⟩, 5⟩ : Settings Nat).data = 5 ∧
      ∃ s2 : Settings Nat,
        Settings.load cNat fsOne5 "cfg" = .ok s2 ∧ s2.data = 5) :=
  write_then_reload cNat sC1 fsC1 (fun _ => 5) 5 ⟨⟨"cfg", 1, noFaults⟩, 5⟩
    fsOne5 rfl
    (fun bs hb => by
      simp only [cNat, Option.some.injEq] at hb
      subst hb
      rfl)
    (by decide) (by decide)

/-- C8: if any I/O primitive of the write-back sequence fails on the
store's handle, the guard's release panics (the `.unwrap()` aborts the
scope): the outcome is `panicked`, never an `ok` carrying an error value,
and `MutResult` has no error-return constructor at all. -/
theorem writeback_failure_panics {T : Type} (c : Codec T) (s : Settings T)
    (fs : FS) (f : T → T) (hfail : s.file.faults ≠ noFaults) :
    Settings.withGuardMut c s fs f = .panicked := by
  obtain ⟨⟨p, pos, f1, f2, f3, f4⟩, d⟩ := s
  cases f1 <;> cases f2 <;> cases f3 <;> cases f4 <;>
    cases he : c.encode (f d) <;>
    simp_all [Settings.withGuardMut, MutableSettingsGuard.drop, fileSetLen,
      fileSyncAll, fileSeekStart, fileWriteAll, noFaults]

/-- C8 witness: a store whose handle fails `set_len` panics on release. -/
theorem writeback_failure_panics_witness :
    Settings.withGuardMut cNat sFaulty fsC1 (fun d => d) = .panicked :=
  writeback_failure_panics cNat sFaulty fsC1 (fun d => d) (by decide)

/-- C10: releasing a write guard rewrites the backing file even when the
value was never mutated: acquiring `guard_mut()` and dropping it
immediately (mutation is the identity) leaves the file containing exactly
the encoding of the current in-memory value. -/
theorem guard_mut_rewrites_unconditionally {T : Type} (c : Codec T)
    (s : Settings T) (fs : FS) (bs : Bytes)
    (hf : s.file.faults = noFaults) (he : c.encode s.data = some bs) :
    ∃ fs' : FS,
      Settings.withGuardMut c s fs (fun d => d) =
        .ok ⟨⟨s.file.path, bs.length, s.file.faults⟩, s.data⟩ fs' ∧
      fs'.getFile s.file.path = some bs := by
  refine ⟨(fs.setFile s.file.path []).setFile s.file.path bs, ?_, by simp⟩
  simp [Settings.withGuardMut, drop_noFaults c s.data fs s.file hf bs he]

/-- C10 witness: dropping an un-mutated write guard on the store holding
3 rewrites `cfg` to the encoding `[3]`. -/
theorem guard_mut_rewrites_unconditionally_witness :
    ∃ fs' : FS,
      Settings.withGuardMut cNat sC1 fsW (fun d => d) =
        .ok ⟨⟨"cfg", 1, noFaults⟩, 3⟩ fs' ∧
      fs'.getFile "cfg" = some [3] :=
  guard_mut_rewrites_unconditionally cNat sC1 fsW [3] rfl rfl

/-- C6 as amended: `Settings::new` returns an `io::Error` when the file
cannot be created, but when encoding `initial_value` fails the implicit
write-back panics (`toml::to_vec(..).unwrap()`) instead of returning an
`io::Error`. -/
theorem new_failure_modes {T : Type} (c : Codec T) (fs : FS) (p : Path)
    (v : T) :
    (p ∈ fs.badCreate → Settings.new c fs p v = .ioError) ∧
    (p ∉ fs.badCreate → c.encode v = none →
      Settings.new c fs p v = .panicked) := by
  constructor
  · intro h
    simp [Settings.new, h]
  · intro h he
    unfold Settings.new
    rw [if_neg h, drop_encode_none c v (fs.setFile p []) ⟨p, 0, fs.getFaults p⟩ he]

/-- C6 witness: creation at a path that fails `File::create` returns the
I/O error, and creation of a value whose encoding fails panics. -/
theorem new_failure_modes_witness :
    Settings.new cNat fsBadC "cfg" 3 = .ioError ∧
    Settings.new cBadEnc fs0 "k" 0 = .panicked :=
  ⟨(new_failure_modes cNat fsBadC "cfg" 3).1 (by decide),
   (new_failure_modes cBadEnc fs0 "k" 0).2 (by decide) rfl⟩

/-- C6 counterexample: with a codec whose `encode` fails, `Settings::new`
at a creatable path panics — it does not return an `io::Error`, contrary
to the claim that encoding failure yields a returned `IOError`. -/
theorem new_encode_fail_not_ioError :
    Settings.new cBadEnc fs0 "cfg" 0 = .panicked ∧
    Settings.new cBadEnc fs0 "cfg" 0 ≠ .ioError := by
  decide

end SimpleSettings
